import Mathlib

/-!
Shallow embedding of the dashboard application (`src/src/App.jsx`): the mock
session store (`AuthProvider` with `login` / `logout`), the fetch client
(`fetchJson`), the query-cache configuration (`queryClient` defaults and the
per-query options of `useUsers`, `useSales`, `useActivityData`), and the two
mock data generators (the sales dataset and the activity grid).

JavaScript strings are embedded as `String`, nullable values as `Option`,
the `Date.now()` timestamp and the random suffix of the minted token as
explicit parameters, and each `Math.random()` draw as a rational in `[0, 1)`
supplied by an explicit draw sequence.
-/

/-- The profile stored by `login`: `{ email, name: email.split('@')[0] }`. -/
structure Profile where
  email : String
  name : String
deriving DecidableEq

/-- The `AuthProvider` state: the `token` and `user` React state cells,
both initialised to `null`. -/
structure AuthState where
  token : Option String
  user : Option Profile
deriving DecidableEq

/-- The initial `AuthProvider` state: `useState(null)` for both cells. -/
def initialAuthState : AuthState := ⟨none, none⟩

/-- The value returned by `login`: `{ success: true }` or
`{ success: false, error: 'Invalid credentials' }`. -/
structure LoginResult where
  success : Bool
  error : Option String
deriving DecidableEq

/-- JavaScript `String.prototype.split` with a one-character separator:
`jsSplit sep l` is the list of separator-free chunks of `l`. It is never
empty (splitting the empty string gives `[[]]`). -/
def jsSplit (sep : Char) : List Char → List (List Char)
  | [] => [[]]
  | c :: cs =>
    if c = sep then [] :: jsSplit sep cs
    else (c :: (jsSplit sep cs).headD []) :: (jsSplit sep cs).tail

/-- `email.split('@')[0]`: the part of the string before the first `'@'`. -/
def localPart (s : String) : String :=
  ⟨(jsSplit '@' s.data).headD []⟩

/-- The token minted on a successful login:
``mock_token_${Date.now()}_${Math.random().toString(36).substr(2, 9)}``,
with the timestamp and the random suffix as explicit parameters. -/
def mintToken (now : Nat) (rand : String) : String :=
  "mock_token_" ++ toString now ++ "_" ++ rand

/-- The `login` closure of `AuthProvider`: if both arguments are truthy
(non-empty), it stores a fresh token and the derived profile and reports
success; otherwise it reports failure and leaves the state untouched. -/
def login (email password : String) (now : Nat) (rand : String)
    (s : AuthState) : LoginResult × AuthState :=
  if email ≠ "" ∧ password ≠ "" then
    (⟨true, none⟩,
      ⟨some (mintToken now rand), some ⟨email, localPart email⟩⟩)
  else
    (⟨false, some "Invalid credentials"⟩, s)

/-- The `logout` closure of `AuthProvider`: `setToken(null); setUser(null)`. -/
def logout (_s : AuthState) : AuthState := ⟨none, none⟩

/-- The session-state invariant stated by the spec: a defined token implies a
defined profile and vice versa. -/
def sessionInv (s : AuthState) : Prop :=
  s.token.isSome ↔ s.user.isSome

/-- Truthiness of an optional string, as JavaScript `if (token)` tests it:
`null` and the empty string are falsy. -/
def jsTruthy : Option String → Bool
  | none => false
  | some s => s != ""

/-- The headers built by `fetchJson`: always `Content-Type: application/json`,
plus `Authorization: Bearer <token>` when the token is truthy. -/
def fetchHeaders (token : Option String) : List (String × String) :=
  ("Content-Type", "application/json") ::
    (if jsTruthy token then [("Authorization", "Bearer " ++ token.getD "")]
     else [])

/-- Whether a header list carries an `Authorization` entry. -/
def hasAuthHeader (hs : List (String × String)) : Bool :=
  hs.any fun p => p.1 == "Authorization"

/-- An HTTP response as `fetchJson` observes it: a status code and a body. -/
structure HttpResponse where
  status : Nat
  body : String
deriving DecidableEq

/-- `res.ok` of the Fetch API: status in the inclusive range 200–299. -/
def resOk (r : HttpResponse) : Bool :=
  200 ≤ r.status && r.status < 300

/-- The outcome of `fetchJson`: the parsed body, the thrown
``new Error(`HTTP ${res.status}`)`` (carrying its message), or the
`SyntaxError` thrown by `res.json()` on a body that is not valid JSON. -/
inductive FetchOutcome (J : Type) where
  | ok (value : J)
  | httpError (message : String)
  | parseError
deriving DecidableEq

/-- The result of one `fetchJson` invocation, given the response the network
delivers; JSON parsing is abstracted as a partial function `parse`. -/
def fetchJsonRes {J : Type} (parse : String → Option J)
    (resp : HttpResponse) : FetchOutcome J :=
  if resOk resp then
    match parse resp.body with
    | some v => .ok v
    | none => .parseError
  else
    .httpError ("HTTP " ++ toString resp.status)

/-- The network requests a single `fetchJson` invocation issues: exactly one
`fetch(url, { headers })`. -/
def fetchRequests (url : String) (token : Option String) :
    List (String × List (String × String)) :=
  [(url, fetchHeaders token)]

/-- The fixed base URL of the live endpoint. -/
def apiBaseUrl : String := "https://jsonplaceholder.typicode.com"

/-- The dataset produced by the `useSales` query function. -/
structure SalesData where
  labels : List String
  revenue : List Nat
  expenses : List Nat
deriving DecidableEq

/-- The fixed sales dataset returned by `useSales` after its artificial
delay. -/
def salesDataset : SalesData :=
  ⟨["Jan", "Feb", "Mar", "Apr", "May", "Jun",
    "Jul", "Aug", "Sep", "Oct", "Nov", "Dec"],
   [45000, 52000, 48000, 61000, 55000, 67000,
    72000, 68000, 75000, 82000, 79000, 88000],
   [32000, 35000, 33000, 42000, 38000, 45000,
    48000, 46000, 51000, 55000, 53000, 58000]⟩

/-- The day-name table of `useActivityData`. -/
def dayNames : List String :=
  ["Sun", "Mon", "Tue", "Wed", "Thu", "Fri", "Sat"]

/-- One cell pushed by `useActivityData`:
`{ week, day, dayName: days[day], value }`. -/
structure ActivityCell where
  week : Nat
  day : Nat
  dayName : String
  value : Int
deriving DecidableEq

/-- The intensity drawn for one cell: `Math.floor(Math.random() * 30)` on a
weekend day (0 or 6), `Math.floor(Math.random() * 100)` otherwise; `draw` is
the `Math.random()` result for this cell. -/
def activityValue (draw : ℚ) (day : Nat) : Int :=
  if day = 0 ∨ day = 6 then ⌊draw * 30⌋ else ⌊draw * 100⌋

/-- The cell list built by the nested loops of `useActivityData`: weeks
0–11 outer, days 0–6 inner, consuming one random draw per cell. -/
def genActivityCells (draws : Nat → ℚ) : List ActivityCell :=
  ((List.range 12).map fun week =>
    (List.range 7).map fun day =>
      ⟨week, day, dayNames.getD day "",
        activityValue (draws (week * 7 + day)) day⟩).flatten

/-- The value returned by the `useActivityData` query function:
`{ data, days, weeks }`. -/
structure ActivityData where
  data : List ActivityCell
  days : List String
  weeks : Nat
deriving DecidableEq

/-- The full result of the activity generator. -/
def genActivity (draws : Nat → ℚ) : ActivityData :=
  ⟨genActivityCells draws, dayNames, 12⟩

/-- Per-query cache options: the query key and the `staleTime` override
(absent means the `queryClient` default applies). -/
structure QueryOptions where
  key : String × Option String
  staleTime : Option Nat
deriving DecidableEq

/-- `staleTime: 30000` from the `queryClient` default options. -/
def defaultStaleTime : Nat := 30000

/-- `cacheTime: 5 * 60 * 1000` from the `queryClient` default options. -/
def defaultCacheTime : Nat := 5 * 60 * 1000

/-- The `useUsers` query: key `['users', token]`, no `staleTime` override. -/
def usersQuery (token : Option String) : QueryOptions :=
  ⟨("users", token), none⟩

/-- The `useSales` query: key `['sales', token]`, `staleTime: 60000`. -/
def salesQuery (token : Option String) : QueryOptions :=
  ⟨("sales", token), some 60000⟩

/-- The `useActivityData` query: key `['activity', token]`,
`staleTime: 60000`. -/
def activityQuery (token : Option String) : QueryOptions :=
  ⟨("activity", token), some 60000⟩

/-- The stale time in force for a query: its override if given, else the
client default. -/
def effectiveStaleTime (o : QueryOptions) : Nat :=
  o.staleTime.getD defaultStaleTime

/-- All cache keys used by the resource hooks under a given session token. -/
def queryKeys (token : Option String) : List (String × Option String) :=
  [(usersQuery token).key, (salesQuery token).key, (activityQuery token).key]

/-- Modelled from the spec: the freshness decision of the query cache (the
react-query library, not part of this repository's sources) — a cached
success entry is served without invoking the producer exactly when its age
is strictly below the query's effective stale time. -/
def servedFromCache (o : QueryOptions) (age : Nat) : Prop :=
  age < effectiveStaleTime o

/-- Modelled from the spec: the eviction decision of the query cache (the
react-query library, not part of this repository's sources) — an entry with
no active observers is evicted once its inactivity reaches the cache time. -/
def evictedAfterInactivity (inactive : Nat) : Prop :=
  defaultCacheTime ≤ inactive

/- ### Helper lemmas -/

theorem jsSplit_ne_nil (sep : Char) (l : List Char) : jsSplit sep l ≠ [] := by
  cases l with
  | nil => simp [jsSplit]
  | cons c cs =>
    simp only [jsSplit]
    split <;> simp

theorem jsSplit_headD (sep : Char) (l : List Char) :
    (jsSplit sep l).headD [] = l.takeWhile (fun c => c != sep) := by
  induction l with
  | nil => rfl
  | cons c cs ih =>
    simp only [jsSplit]
    by_cases h : c = sep
    · have hb : ¬ ((fun x => x != sep) c = true) := by simp [h]
      rw [if_pos h, List.headD_cons, List.takeWhile_cons, if_neg hb]
    · have hb : (fun x => x != sep) c = true := by simp [h]
      rw [if_neg h, List.headD_cons, List.takeWhile_cons, if_pos hb, ih]

theorem localPart_eq_takeWhile (s : String) :
    localPart s = ⟨s.data.takeWhile (fun c => c != '@')⟩ := by
  simp only [localPart]
  rw [jsSplit_headD]

theorem mintToken_ne_empty (now : Nat) (rand : String) :
    mintToken now rand ≠ "" := by
  intro h
  have hd := congrArg String.data h
  simp only [mintToken, String.data_append] at hd
  simp at hd

theorem localPart_of_no_at (s : String) (h : '@' ∉ s.data) :
    localPart s = s := by
  rw [localPart_eq_takeWhile]
  have ht : s.data.takeWhile (fun c => c != '@') = s.data :=
    List.takeWhile_eq_self_iff.mpr fun c hc => by
      simp only [bne_iff_ne, ne_eq]
      intro hcc
      exact h (hcc ▸ hc)
  rw [ht]

theorem dayNames_getD_mem (day : Nat) (h : day < 7) :
    dayNames.getD day "" ∈ dayNames := by
  interval_cases day <;> simp [dayNames]

theorem activityValue_bounds (draw : ℚ) (day : Nat)
    (h0 : 0 ≤ draw) (h1 : draw < 1) :
    0 ≤ activityValue draw day ∧ activityValue draw day ≤ 99 ∧
    ((day = 0 ∨ day = 6) → activityValue draw day ≤ 29) := by
  unfold activityValue
  by_cases hd : day = 0 ∨ day = 6
  · rw [if_pos hd]
    have hf0 : 0 ≤ ⌊draw * 30⌋ :=
      Int.floor_nonneg.mpr (by nlinarith)
    have hf1 : ⌊draw * 30⌋ < 30 := by
      rw [Int.floor_lt]
      push_cast
      nlinarith
    exact ⟨hf0, by omega, fun _ => by omega⟩
  · rw [if_neg hd]
    have hf0 : 0 ≤ ⌊draw * 100⌋ :=
      Int.floor_nonneg.mpr (by nlinarith)
    have hf1 : ⌊draw * 100⌋ < 100 := by
      rw [Int.floor_lt]
      push_cast
      nlinarith
    exact ⟨hf0, by omega, fun hdd => absurd hdd hd⟩

theorem mem_genActivityCells {draws : Nat → ℚ} {cell : ActivityCell}
    (h : cell ∈ genActivityCells draws) :
    ∃ week day, week < 12 ∧ day < 7 ∧
      cell = ⟨week, day, dayNames.getD day "",
        activityValue (draws (week * 7 + day)) day⟩ := by
  simp only [genActivityCells, List.mem_flatten, List.mem_map,
    List.mem_range] at h
  obtain ⟨l, ⟨week, hw, rfl⟩, hcell⟩ := h
  obtain ⟨day, hd, rfl⟩ := List.mem_map.mp hcell
  exact ⟨week, day, hw, List.mem_range.mp hd, rfl⟩

/- ### Claim theorems -/

/-- C1: every resource query key is the ordered pair of the resource name and
the current session token; for any two distinct tokens the key sets are
disjoint, so a query under one token never addresses an entry cached under
another. -/
theorem cache_keys_disjoint (A B : Option String) (hAB : A ≠ B) :
    ∀ k1 ∈ queryKeys A, ∀ k2 ∈ queryKeys B, k1 ≠ k2 := by
  intro k1 h1 k2 h2 hEq
  apply hAB
  have e1 : k1.2 = A := by
    simp only [queryKeys, usersQuery, salesQuery, activityQuery,
      List.mem_cons, List.mem_singleton, List.not_mem_nil, or_false] at h1
    rcases h1 with h | h | h <;> simp [h]
  have e2 : k2.2 = B := by
    simp only [queryKeys, usersQuery, salesQuery, activityQuery,
      List.mem_cons, List.mem_singleton, List.not_mem_nil, or_false] at h2
    rcases h2 with h | h | h <;> simp [h]
  rw [← e1, ← e2, hEq]

theorem cache_keys_disjoint_witness :
    ("users", (some "tokenA" : Option String)) ≠ ("users", some "tokenB") :=
  cache_keys_disjoint (some "tokenA") (some "tokenB") (by decide)
    ("users", some "tokenA") (by decide)
    ("users", some "tokenB") (by decide)

/-- C2: `login` succeeds exactly when both credentials are non-empty, and on
any valid pair it mints a non-empty token and stores a profile whose contact
equals the input and whose display name is the part of the contact before
the first `'@'`. -/
theorem login_valid_credentials (email password : String) (now : Nat)
    (rand : String) (s : AuthState) :
    ((login email password now rand s).1.success = true ↔
      (email ≠ "" ∧ password ≠ "")) ∧
    (email ≠ "" → password ≠ "" →
      (login email password now rand s).1.success = true ∧
      (∃ t, (login email password now rand s).2.token = some t ∧ t ≠ "") ∧
      (∃ p, (login email password now rand s).2.user = some p ∧
        p.email = email ∧
        p.name = ⟨email.data.takeWhile (fun c => c != '@')⟩)) := by
  constructor
  · by_cases hc : email ≠ "" ∧ password ≠ "" <;> simp [login, hc]
  · intro he hp
    have hc : email ≠ "" ∧ password ≠ "" := ⟨he, hp⟩
    refine ⟨by simp [login, hc],
      ⟨mintToken now rand, by simp [login, hc], mintToken_ne_empty now rand⟩,
      ⟨⟨email, localPart email⟩, by simp [login, hc], rfl, ?_⟩⟩
    exact localPart_eq_takeWhile email

theorem login_valid_credentials_witness :
    (login "alice@example.com" "pw" 0 "r9" initialAuthState).1.success
        = true ∧
    (∃ t, (login "alice@example.com" "pw" 0 "r9" initialAuthState).2.token
        = some t ∧ t ≠ "") ∧
    (∃ p, (login "alice@example.com" "pw" 0 "r9" initialAuthState).2.user
        = some p ∧ p.email = "alice@example.com" ∧
      p.name = ⟨"alice@example.com".data.takeWhile (fun c => c != '@')⟩) :=
  (login_valid_credentials "alice@example.com" "pw" 0 "r9"
    initialAuthState).2 (by decide) (by decide)

/-- A prior session state that is logged in, used to exhibit that a failed
login does not clear it. -/
def loggedInState : AuthState :=
  ⟨some "tok", some ⟨"a@b.c", "a"⟩⟩

/-- C3 counterexample: with a logged-in prior state, an invalid login
(empty contact) fails but does NOT leave the session cleared — the failure
branch of `login` never touches the state. -/
theorem login_failure_not_cleared :
    (login "" "pw" 0 "r" loggedInState).1.success = false ∧
    ¬ ((login "" "pw" 0 "r" loggedInState).2.token = none ∧
       (login "" "pw" 0 "r" loggedInState).2.user = none) := by
  decide

/-- C3 amended: for every invalid credential pair and every prior session
state, `login` fails with the validation error and leaves the session state
exactly as it was — in particular a cleared session stays cleared. -/
theorem login_invalid_state_unchanged (email password : String) (now : Nat)
    (rand : String) (s : AuthState) (h : email = "" ∨ password = "") :
    (login email password now rand s).1.success = false ∧
    (login email password now rand s).1.error = some "Invalid credentials" ∧
    (login email password now rand s).2 = s := by
  have hc : ¬ (email ≠ "" ∧ password ≠ "") := by
    rcases h with h | h <;> simp [h]
  simp [login, hc]

theorem login_invalid_state_unchanged_witness :
    (login "" "pw" 0 "r" initialAuthState).1.success = false ∧
    (login "" "pw" 0 "r" initialAuthState).1.error
        = some "Invalid credentials" ∧
    (login "" "pw" 0 "r" initialAuthState).2 = initialAuthState :=
  login_invalid_state_unchanged "" "pw" 0 "r" initialAuthState (Or.inl rfl)

/-- C4 counterexample: an empty-string token argument is present but falsy,
so `fetchJson` attaches no `Authorization` header — "exactly when a token
argument is present" fails at `some ""`. -/
theorem auth_header_not_iff_present :
    (some "" : Option String).isSome = true ∧
    hasAuthHeader (fetchHeaders (some "")) = false := by
  decide

/-- C4 amended: `fetchJson` attaches the bearer header exactly when the
token argument is present and non-empty (truthy), always sends
`Content-Type: application/json`, fails on every non-success status with an
error whose message contains the status code and without inspecting the
body, fails with a parse error on a successful status whose body does not
parse as JSON, and issues exactly one request per invocation. -/
theorem fetch_client_contract {J : Type} (parse : String → Option J)
    (token : Option String) (resp : HttpResponse) (url : String) :
    hasAuthHeader (fetchHeaders token) = jsTruthy token ∧
    ("Content-Type", "application/json") ∈ fetchHeaders token ∧
    (resOk resp = false →
      fetchJsonRes parse resp
          = .httpError ("HTTP " ++ toString resp.status) ∧
      (toString resp.status).data
          <:+: ("HTTP " ++ toString resp.status).data ∧
      ∀ otherBody, fetchJsonRes parse { resp with body := otherBody }
          = fetchJsonRes parse resp) ∧
    (resOk resp = true → parse resp.body = none →
      fetchJsonRes parse resp = FetchOutcome.parseError) ∧
    (fetchRequests url token).length = 1 := by
  refine ⟨?_, ?_, ?_, ?_, rfl⟩
  · cases token with
    | none => rfl
    | some s =>
      by_cases hs : s = "" <;>
        simp [fetchHeaders, hasAuthHeader, jsTruthy, hs]
  · simp [fetchHeaders]
  · intro hok
    refine ⟨by simp [fetchJsonRes, hok], ?_, ?_⟩
    · rw [String.data_append]
      exact (List.suffix_append _ _).isInfix
    · intro b
      have hok2 : resOk { resp with body := b } = false := hok
      simp [fetchJsonRes, hok, hok2]
  · intro hok hp
    simp [fetchJsonRes, hok, hp]

theorem fetch_client_contract_witness :
    hasAuthHeader (fetchHeaders (some "tok")) = jsTruthy (some "tok") ∧
    fetchJsonRes (fun _ => (none : Option Unit)) ⟨404, "x"⟩
        = FetchOutcome.httpError ("HTTP " ++ toString 404) ∧
    fetchJsonRes (fun _ => (none : Option Unit)) ⟨200, "x"⟩
        = FetchOutcome.parseError ∧
    (fetchRequests (apiBaseUrl ++ "/users") (some "tok")).length = 1 := by
  have h404 := fetch_client_contract (fun _ => (none : Option Unit))
    (some "tok") ⟨404, "x"⟩ (apiBaseUrl ++ "/users")
  have h200 := fetch_client_contract (fun _ => (none : Option Unit))
    (some "tok") ⟨200, "x"⟩ (apiBaseUrl ++ "/users")
  exact ⟨h404.1, (h404.2.2.1 (by decide)).1,
    h200.2.2.2.1 (by decide) rfl, h404.2.2.2.2⟩

/-- C5: the sales generator is a constant: the fixed twelve month labels,
the fixed revenue series, and an expenses series of the same length. -/
theorem sales_dataset_fixed :
    salesDataset.labels = ["Jan", "Feb", "Mar", "Apr", "May", "Jun", "Jul",
      "Aug", "Sep", "Oct", "Nov", "Dec"] ∧
    salesDataset.revenue = [45000, 52000, 48000, 61000, 55000, 67000, 72000,
      68000, 75000, 82000, 79000, 88000] ∧
    salesDataset.expenses.length = salesDataset.revenue.length ∧
    salesDataset.revenue.length = 12 :=
  ⟨rfl, rfl, rfl, rfl⟩

/-- C6: whatever the random draws (each in `[0, 1)`), the activity generator
yields exactly 84 cells; every cell's day name comes from the seven-day
table, its value lies in `[0, 99]`, and weekend cells (day 0 or 6) lie in
`[0, 29]`. -/
theorem activity_generator_spec (draws : Nat → ℚ)
    (hd : ∀ k, 0 ≤ draws k ∧ draws k < 1) :
    (genActivity draws).data.length = 84 ∧
    ∀ cell ∈ (genActivity draws).data,
      cell.dayName ∈ dayNames ∧
      0 ≤ cell.value ∧ cell.value ≤ 99 ∧
      ((cell.day = 0 ∨ cell.day = 6) → cell.value ≤ 29) := by
  refine ⟨rfl, ?_⟩
  intro cell hc
  obtain ⟨week, day, hw, hday, rfl⟩ := mem_genActivityCells hc
  obtain ⟨h0, h1⟩ := hd (week * 7 + day)
  obtain ⟨b0, b1, b2⟩ := activityValue_bounds _ day h0 h1
  exact ⟨dayNames_getD_mem day hday, b0, b1, b2⟩

theorem activity_generator_spec_witness :
    (genActivity (fun _ => (0 : ℚ))).data.length = 84 :=
  (activity_generator_spec (fun _ => 0)
    (fun _ => ⟨le_refl 0, by norm_num⟩)).1

/-- C7: the stale time in force is 30000 ms for the users query and
60000 ms for the sales and activity queries; a cached success entry younger
than its threshold is served from cache, and an unobserved entry is evicted
once inactive for the 5-minute cache time. -/
theorem cache_policy (token : Option String) (age inact : Nat) :
    effectiveStaleTime (usersQuery token) = 30000 ∧
    effectiveStaleTime (salesQuery token) = 60000 ∧
    effectiveStaleTime (activityQuery token) = 60000 ∧
    (age < 30000 → servedFromCache (usersQuery token) age) ∧
    (age < 60000 → servedFromCache (salesQuery token) age ∧
      servedFromCache (activityQuery token) age) ∧
    defaultCacheTime = 5 * 60 * 1000 ∧
    (5 * 60 * 1000 ≤ inact → evictedAfterInactivity inact) :=
  ⟨rfl, rfl, rfl, fun h => h, fun h => ⟨h, h⟩, rfl, fun h => h⟩

theorem cache_policy_witness :
    servedFromCache (usersQuery none) 29999 ∧
    servedFromCache (salesQuery none) 59999 ∧
    servedFromCache (activityQuery none) 59999 ∧
    evictedAfterInactivity 300000 := by
  obtain ⟨-, -, -, hu, hs, -, he⟩ := cache_policy none 29999 300000
  obtain ⟨-, -, -, -, hs2, -, -⟩ := cache_policy none 59999 300000
  exact ⟨hu (by decide), (hs2 (by decide)).1, (hs2 (by decide)).2,
    he (by decide)⟩

/-- C8: `logout` clears both the token and the profile unconditionally,
whatever the prior state. -/
theorem logout_clears (s : AuthState) :
    (logout s).token = none ∧ (logout s).user = none :=
  ⟨rfl, rfl⟩

/-- C9: the invariant "token defined iff profile defined" holds in the
initial state and is preserved by `login` (with any inputs) and by
`logout`. -/
theorem session_invariant_preserved :
    sessionInv initialAuthState ∧
    (∀ email password now rand s, sessionInv s →
      sessionInv (login email password now rand s).2) ∧
    (∀ s, sessionInv (logout s)) := by
  refine ⟨Iff.rfl, ?_, fun s => Iff.rfl⟩
  intro email password now rand s hs
  by_cases hc : email ≠ "" ∧ password ≠ ""
  · simp [login, hc, sessionInv]
  · simpa [login, hc] using hs

theorem session_invariant_preserved_witness :
    sessionInv (login "a@x" "pw" 0 "r" initialAuthState).2 :=
  session_invariant_preserved.2.1 "a@x" "pw" 0 "r" initialAuthState Iff.rfl

/-- C10: a non-empty contact without `'@'` (with any non-empty secret) still
logs in, and the derived display name is the whole contact string, since
`split('@')[0]` of an at-sign-free string is the string itself. -/
theorem login_contact_without_at (contact secret : String) (now : Nat)
    (rand : String) (s : AuthState) (hc : contact ≠ "") (hs : secret ≠ "")
    (hat : '@' ∉ contact.data) :
    (login contact secret now rand s).1.success = true ∧
    ∃ p, (login contact secret now rand s).2.user = some p ∧
      p.email = contact ∧ p.name = contact := by
  have hcc : contact ≠ "" ∧ secret ≠ "" := ⟨hc, hs⟩
  refine ⟨by simp [login, hcc],
    ⟨contact, localPart contact⟩, by simp [login, hcc], rfl, ?_⟩
  exact localPart_of_no_at contact hat

theorem login_contact_without_at_witness :
    (login "alice" "pw" 0 "r" initialAuthState).1.success = true ∧
    ∃ p, (login "alice" "pw" 0 "r" initialAuthState).2.user = some p ∧
      p.email = "alice" ∧ p.name = "alice" :=
  login_contact_without_at "alice" "pw" 0 "r" initialAuthState
    (by decide) (by decide) (by decide)
